import Mathlib

/-!
Shallow embedding of `src/animation/parse.rs` from the benimator repository:
the descriptor intermediate form (DTO types), the polymorphic frame-entry
deserializer, and the canonicalizer `TryFrom<AnimationDto> for
SpriteSheetAnimation`, together with theorems checking the natural-language
specification against this embedding.

Machine integers (`u64`, `usize`) are modelled as `Nat`; no arithmetic is
performed on them in the source, so overflow cannot arise, but range checks
(`usize::try_from`, field-value ranges) are made explicit with a
`usizeBits` parameter for the platform pointer width.
-/

namespace Benimator

/-- Rust `std::time::Duration`: seconds and nanoseconds (nanos < 10^9).
Modelled from the Rust standard library, used by the source via
`Duration::from_millis`. -/
structure Duration where
  secs : Nat
  nanos : Nat
deriving DecidableEq, Repr

/-- `Duration::from_millis(ms)`: `ms / 1000` seconds and
`(ms % 1000) * 1_000_000` nanoseconds. -/
def Duration.from_millis (ms : Nat) : Duration :=
  ⟨ms / 1000, (ms % 1000) * 1000000⟩

/-- Modelled from the spec: the canonical `Frame` of the animation module
(its file is not under `src/`): "show sprite-sheet cell `index` for
`duration`", immutable once constructed. -/
structure Frame where
  index : Nat
  duration : Duration
deriving DecidableEq, Repr

/-- Modelled from the spec: `Frame::new(index, duration)` constructs the
immutable pair. -/
def Frame.new (index : Nat) (duration : Duration) : Frame :=
  ⟨index, duration⟩

/-- Canonical `Mode` (animation module): `Once`, `RepeatFrom n`, `PingPong`.
Modelled from the spec: there is no plain `Repeat` variant in the canonical
model. -/
inductive Mode where
  | Once
  | RepeatFrom (n : Nat)
  | PingPong
deriving DecidableEq, Repr

/-- Modelled from the spec: the canonical `SpriteSheetAnimation` value, an
ordered frame list together with a loop mode (fields as used by
`try_from` in `parse.rs`). -/
structure SpriteSheetAnimation where
  frames : List Frame
  mode : Mode
deriving DecidableEq, Repr

/-- `enum ModeDto { Repeat, RepeatFrom(usize), Once, PingPong }`
(`parse.rs` lines 23-29). -/
inductive ModeDto where
  | Repeat
  | RepeatFrom (n : Nat)
  | Once
  | PingPong
deriving DecidableEq, Repr

/-- `impl Default for ModeDto` (`parse.rs` lines 31-35): `ModeDto::Repeat`. -/
def ModeDto.default : ModeDto := ModeDto.Repeat

/-- `struct FrameDto { index: usize, duration: Option<u64> }`
(`parse.rs` lines 37-40). -/
structure FrameDto where
  index : Nat
  duration : Option Nat
deriving DecidableEq, Repr

/-- `struct AnimationDto` (`parse.rs` lines 14-21): a raw animation document
after format decoding; `mode` and `frame_duration` carry serde defaults. -/
structure AnimationDto where
  mode : ModeDto
  frame_duration : Option Nat
  frames : List FrameDto
deriving DecidableEq, Repr

/-- `enum InvalidAnimation { ZeroDuration }` (`parse.rs` lines 113-116). -/
inductive InvalidAnimation where
  | ZeroDuration
deriving DecidableEq, Repr

/-- The mode normalization `match` inside `try_from` (`parse.rs`
lines 103-108). -/
def normalizeMode : ModeDto → Mode
  | ModeDto.Repeat => Mode.RepeatFrom 0
  | ModeDto.RepeatFrom f => Mode.RepeatFrom f
  | ModeDto.Once => Mode.Once
  | ModeDto.PingPong => Mode.PingPong

/-- The per-entry body of the `map` closure in `try_from` (`parse.rs`
lines 96-101): `duration.or(animation.frame_duration).filter(|d| *d > 0)`,
then either a `Frame` or `InvalidAnimation::ZeroDuration`. -/
def canonicalizeFrame (frame_duration : Option Nat) (f : FrameDto) :
    Except InvalidAnimation Frame :=
  match (f.duration.or frame_duration).filter (fun d => decide (0 < d)) with
  | some duration => Except.ok (Frame.new f.index (Duration.from_millis duration))
  | none => Except.error InvalidAnimation.ZeroDuration

/-- `animation.frames.into_iter().map(...).collect::<Result<_, _>>()`
(`parse.rs` lines 93-102): canonicalize every frame entry in document
order, short-circuiting on the first error. -/
def collectFrames (frame_duration : Option Nat) :
    List FrameDto → Except InvalidAnimation (List Frame)
  | [] => Except.ok []
  | f :: rest =>
    match canonicalizeFrame frame_duration f with
    | Except.ok fr => (collectFrames frame_duration rest).map (fun l => fr :: l)
    | Except.error e => Except.error e

/-- `impl TryFrom<AnimationDto> for SpriteSheetAnimation` (`parse.rs`
lines 88-111): canonicalize every frame in order (`?` propagates the first
error), then normalize the mode. -/
def tryFrom (animation : AnimationDto) :
    Except InvalidAnimation SpriteSheetAnimation :=
  match collectFrames animation.frame_duration animation.frames with
  | Except.ok frames =>
    Except.ok { frames := frames, mode := normalizeMode animation.mode }
  | Except.error e => Except.error e

/-! ## Frame-entry deserialization (`impl Deserialize for FrameDto`)

The `Deserialize` impl (`parse.rs` lines 42-86) calls
`deserializer.deserialize_any(Visitor)`. A self-describing input is an
unsigned integer (dispatched to `visit_u64`), a map (dispatched to
`visit_map`, which runs the serde-derived deserializer of `FrameDtoMap`
with `deny_unknown_fields`), or some other shape (rejected by the default
visitor methods with a type error). Values are modelled shallowly by
`DeValue`; deserialization errors by `DeError`. -/

/-- A self-describing value appearing as a field value in a decoded map:
an unsigned integer literal, an explicit null (optional absent), or any
other shape. -/
inductive DeValue where
  | uint (v : Nat)
  | null
  | other
deriving DecidableEq, Repr

/-- serde deserialization errors relevant to `FrameDto` decoding:
`Error::unknown_field`, `duplicate_field`, `missing_field`, a type
mismatch, and `Error::invalid_value(Unexpected::Unsigned(v), &self)`,
which carries the offending literal `v` and the visitor's `expecting`
string. -/
inductive DeError where
  | unknownField (name : String)
  | duplicateField (name : String)
  | missingField (name : String)
  | invalidType
  | invalidValue (v : Nat) (expecting : String)
deriving DecidableEq, Repr

/-- The literal written by `Visitor::expecting` (`parse.rs` lines 59-61). -/
def frameVisitorExpecting : String :=
  "either a frame index, or a frame-index with a"

/-- `Visitor::visit_u64` (`parse.rs` lines 63-73): `usize::try_from(v)`
succeeds iff `v` fits in the platform's `usizeBits`-bit index type; on
failure, `Error::invalid_value(Unexpected::Unsigned(v), &self)` carries the
offending literal and the `expecting` string. -/
def visit_u64 (usizeBits v : Nat) : Except DeError FrameDto :=
  if v < 2 ^ usizeBits then
    Except.ok { index := v, duration := none }
  else
    Except.error (DeError.invalidValue v frameVisitorExpecting)

/-- `struct FrameDtoMap { index: usize, duration: Option<u64> }` with
`#[serde(deny_unknown_fields)]` (`parse.rs` lines 49-54). -/
structure FrameDtoMap where
  index : Nat
  duration : Option Nat
deriving DecidableEq, Repr

/-- The field loop of the serde-derived `FrameDtoMap` deserializer with
`deny_unknown_fields`: walk the map entries in order, filling the `index`
slot (a `usize`) and the `duration` slot (an `Option<u64>`, so an integer
is accepted as present and null as absent); a repeated key is a
`duplicate_field` error, any key other than `index` and `duration` is an
`unknown_field` error; at the end a missing `index` is a `missing_field`
error while a missing `duration` defaults to `None`. -/
def frameDtoMapGo (usizeBits : Nat) :
    List (String × DeValue) → Option Nat → Option (Option Nat) →
    Except DeError FrameDtoMap
  | [], idx?, dur? =>
    match idx? with
    | none => Except.error (DeError.missingField "index")
    | some index => Except.ok { index := index, duration := dur?.getD none }
  | (k, v) :: rest, idx?, dur? =>
    if k = "index" then
      match idx? with
      | some _ => Except.error (DeError.duplicateField "index")
      | none =>
        match v with
        | DeValue.uint n =>
          if n < 2 ^ usizeBits then frameDtoMapGo usizeBits rest (some n) dur?
          else Except.error DeError.invalidType
        | _ => Except.error DeError.invalidType
    else if k = "duration" then
      match dur? with
      | some _ => Except.error (DeError.duplicateField "duration")
      | none =>
        match v with
        | DeValue.uint n =>
          if n < 2 ^ 64 then frameDtoMapGo usizeBits rest idx? (some (some n))
          else Except.error DeError.invalidType
        | DeValue.null => frameDtoMapGo usizeBits rest idx? (some none)
        | DeValue.other => Except.error DeError.invalidType
    else
      Except.error (DeError.unknownField k)

/-- `Visitor::visit_map` (`parse.rs` lines 75-82): run the `FrameDtoMap`
deserializer on the map entries and repack the result as a `FrameDto`. -/
def visit_map (usizeBits : Nat) (entries : List (String × DeValue)) :
    Except DeError FrameDto :=
  (frameDtoMapGo usizeBits entries none none).map
    (fun m => { index := m.index, duration := m.duration })

/-- A self-describing frame-entry input as seen by `deserialize_any`:
an unsigned integer, a map, or any other shape. -/
inductive SerdeInput where
  | uint (v : Nat)
  | map (entries : List (String × DeValue))
  | otherShape
deriving DecidableEq, Repr

/-- `FrameDto::deserialize` (`parse.rs` lines 42-86):
`deserializer.deserialize_any(Visitor)` dispatches on the input's shape. -/
def FrameDto.deserialize (usizeBits : Nat) : SerdeInput → Except DeError FrameDto
  | SerdeInput.uint v => visit_u64 usizeBits v
  | SerdeInput.map entries => visit_map usizeBits entries
  | SerdeInput.otherShape => Except.error DeError.invalidType

/-! ## Format entry points (`parse.rs` lines 128-253)

`from_yaml_bytes` and `from_ron_bytes` call into the external `serde_yaml`
and `ron` crates; those decoders are not code of this repository and are
modelled as function parameters. A Rust `&str` is modelled by its UTF-8
byte list, so `s.as_bytes()` is the identity coercion `Str.as_bytes`. -/

/-- A Rust `&str`, modelled by its UTF-8 bytes. -/
structure Str where
  bytes : List Nat
deriving DecidableEq, Repr

/-- `str::as_bytes`. -/
def Str.as_bytes (s : Str) : List Nat := s.bytes

/-- `AnimationParseError` (`parse.rs` lines 255-263): wraps the underlying
notation-specific diagnostic (modelled by its display string). -/
structure AnimationParseError where
  inner : String
deriving DecidableEq, Repr

/-- `AnimationParseError::new` (`parse.rs` lines 259-263). -/
def AnimationParseError.new (err : String) : AnimationParseError :=
  ⟨err⟩

/-- `ron::extensions::Extensions` as configured here: only the
`IMPLICIT_SOME` bit matters to this source. -/
structure RonExtensions where
  implicitSome : Bool
deriving DecidableEq, Repr

/-- `ron::Options::default()`: no extensions enabled. -/
def RonExtensions.defaultOptions : RonExtensions := ⟨false⟩

/-- `Options::with_default_extension(Extensions::IMPLICIT_SOME)`. -/
def RonExtensions.with_implicit_some (e : RonExtensions) : RonExtensions :=
  { e with implicitSome := true }

/-- `SpriteSheetAnimation::from_yaml_bytes` (`parse.rs` lines 189-191):
`yaml::from_slice(yaml).map_err(AnimationParseError::new)`, with the
external `yaml::from_slice` passed in as `yamlDe`. -/
def from_yaml_bytes (yamlDe : List Nat → Except String SpriteSheetAnimation)
    (yaml : List Nat) : Except AnimationParseError SpriteSheetAnimation :=
  (yamlDe yaml).mapError AnimationParseError.new

/-- `SpriteSheetAnimation::from_yaml_str` (`parse.rs` lines 157-159):
`Self::from_yaml_bytes(yaml.as_bytes())`. -/
def from_yaml_str (yamlDe : List Nat → Except String SpriteSheetAnimation)
    (yaml : Str) : Except AnimationParseError SpriteSheetAnimation :=
  from_yaml_bytes yamlDe yaml.as_bytes

/-- `SpriteSheetAnimation::from_ron_bytes` (`parse.rs` lines 247-252):
build default options, enable `IMPLICIT_SOME`, decode the bytes, and wrap
the error; the external `Options::from_bytes` is passed in as `ronDe`,
receiving the configured extensions. -/
def from_ron_bytes
    (ronDe : RonExtensions → List Nat → Except String SpriteSheetAnimation)
    (ron : List Nat) : Except AnimationParseError SpriteSheetAnimation :=
  (ronDe RonExtensions.defaultOptions.with_implicit_some ron).mapError
    AnimationParseError.new

/-- `SpriteSheetAnimation::from_ron_str` (`parse.rs` lines 218-220):
`Self::from_ron_bytes(ron.as_bytes())`. -/
def from_ron_str
    (ronDe : RonExtensions → List Nat → Except String SpriteSheetAnimation)
    (ron : Str) : Except AnimationParseError SpriteSheetAnimation :=
  from_ron_bytes ronDe ron.as_bytes

/-! ## Helper lemmas -/

/-- A frame entry canonicalizes successfully iff its effective duration
(override-then-shared) resolves to some positive `d`, and then the frame
is `Frame::new(index, Duration::from_millis(d))`. -/
theorem canonicalizeFrame_ok_iff (fd : Option Nat) (f : FrameDto) (fr : Frame) :
    canonicalizeFrame fd f = Except.ok fr ↔
      ∃ d, f.duration.or fd = some d ∧ 0 < d ∧
        fr = Frame.new f.index (Duration.from_millis d) := by
  unfold canonicalizeFrame
  cases hfil : (f.duration.or fd).filter (fun d => decide (0 < d)) with
  | none =>
    rw [Option.filter_eq_none] at hfil
    constructor
    · intro he
      cases he
    · rintro ⟨d, hd, hpos, _⟩
      rcases hfil with hnone | hall
      · rw [hnone] at hd
        cases hd
      · have := hall d (Option.mem_def.mpr hd)
        exact absurd (decide_eq_true hpos) this
  | some d =>
    rw [Option.filter_eq_some] at hfil
    obtain ⟨hmem, hpos⟩ := hfil
    rw [Option.mem_def] at hmem
    constructor
    · intro he
      injection he with he
      exact ⟨d, hmem, of_decide_eq_true hpos, he.symm⟩
    · rintro ⟨d', hd', _, hfr⟩
      rw [hmem] at hd'
      injection hd' with hd'
      subst hd'
      rw [hfr]

/-- A frame entry canonicalization fails (necessarily with `ZeroDuration`)
iff its effective duration is absent or equal to zero. -/
theorem canonicalizeFrame_error_iff (fd : Option Nat) (f : FrameDto) :
    canonicalizeFrame fd f = Except.error InvalidAnimation.ZeroDuration ↔
      (f.duration.or fd = none ∨ f.duration.or fd = some 0) := by
  unfold canonicalizeFrame
  cases hfil : (f.duration.or fd).filter (fun d => decide (0 < d)) with
  | none =>
    rw [Option.filter_eq_none] at hfil
    constructor
    · intro _
      rcases hfil with hnone | hall
      · exact Or.inl hnone
      · cases ho : f.duration.or fd with
        | none => exact Or.inl rfl
        | some d =>
          have hd := hall d (Option.mem_def.mpr ho)
          have hd0 : d = 0 := by
            by_contra hne
            exact hd (decide_eq_true (Nat.pos_of_ne_zero hne))
          exact Or.inr (by rw [hd0])
    · intro _
      rfl
  | some d =>
    rw [Option.filter_eq_some] at hfil
    obtain ⟨hmem, hpos⟩ := hfil
    rw [Option.mem_def] at hmem
    constructor
    · intro he
      cases he
    · rintro (h0 | h0)
      · rw [h0] at hmem
        cases hmem
      · rw [h0] at hmem
        injection hmem with hmem
        rw [← hmem] at hpos
        simp at hpos

/-- `collectFrames` succeeds with `r` iff every entry canonicalizes
successfully, pointwise in document order. -/
theorem collectFrames_ok_iff (fd : Option Nat) :
    ∀ (l : List FrameDto) (r : List Frame),
      collectFrames fd l = Except.ok r ↔
        List.Forall₂ (fun f fr => canonicalizeFrame fd f = Except.ok fr) l r := by
  intro l
  induction l with
  | nil =>
    intro r
    constructor
    · intro h
      cases h
      exact List.Forall₂.nil
    · intro h
      cases h
      rfl
  | cons f rest ih =>
    intro r
    unfold collectFrames
    cases hf : canonicalizeFrame fd f with
    | error e =>
      constructor
      · intro h
        cases h
      · intro h
        cases h with
        | @cons a b l₁ l₂ hy hys =>
          rw [hf] at hy
          cases hy
    | ok fr =>
      cases hrest : collectFrames fd rest with
      | error e =>
        constructor
        · intro h
          cases h
        · intro h
          cases h with
          | @cons a b l₁ l₂ hy hys =>
            rw [(ih l₂).mpr hys] at hrest
            cases hrest
      | ok frs =>
        constructor
        · intro h
          injection h with h
          rw [← h]
          exact List.Forall₂.cons hf ((ih frs).mp hrest)
        · intro h
          cases h with
          | @cons a b l₁ l₂ hy hys =>
            rw [hf] at hy
            injection hy with hy
            rw [(ih l₂).mpr hys] at hrest
            injection hrest with hrest
            rw [← hy, ← hrest]
            rfl

/-- `collectFrames` fails (necessarily with `ZeroDuration`) iff some entry
fails to canonicalize. -/
theorem collectFrames_error_iff (fd : Option Nat) :
    ∀ l : List FrameDto,
      collectFrames fd l = Except.error InvalidAnimation.ZeroDuration ↔
        ∃ f ∈ l, canonicalizeFrame fd f = Except.error InvalidAnimation.ZeroDuration := by
  intro l
  induction l with
  | nil =>
    constructor
    · intro h
      cases h
    · rintro ⟨f, hf, _⟩
      cases hf
  | cons f rest ih =>
    unfold collectFrames
    cases hf : canonicalizeFrame fd f with
    | error e =>
      cases e
      constructor
      · intro _
        exact ⟨f, List.mem_cons_self f rest, hf⟩
      · intro _
        rfl
    | ok fr =>
      cases hrest : collectFrames fd rest with
      | error e =>
        cases e
        constructor
        · intro _
          obtain ⟨g, hg, hge⟩ := ih.mp hrest
          exact ⟨g, List.mem_cons_of_mem f hg, hge⟩
        · intro _
          rfl
      | ok frs =>
        constructor
        · intro h
          cases h
        · rintro ⟨g, hg, hge⟩
          rcases List.mem_cons.mp hg with hgf | hgr
          · rw [hgf] at hge
            rw [hge] at hf
            cases hf
          · rw [ih.mpr ⟨g, hgr, hge⟩] at hrest
            cases hrest

/-- `tryFrom` succeeds iff `collectFrames` does, and then the mode is the
normalized one. -/
theorem tryFrom_ok_iff (a : AnimationDto) (r : SpriteSheetAnimation) :
    tryFrom a = Except.ok r ↔
      collectFrames a.frame_duration a.frames = Except.ok r.frames ∧
        r.mode = normalizeMode a.mode := by
  unfold tryFrom
  cases h : collectFrames a.frame_duration a.frames with
  | error e =>
    constructor
    · intro hh
      cases hh
    · rintro ⟨hh, _⟩
      cases hh
  | ok frames =>
    constructor
    · intro hh
      cases hh
      exact ⟨rfl, rfl⟩
    · rintro ⟨hh, hm⟩
      cases hh
      cases r
      simp_all

/-- `tryFrom` fails iff `collectFrames` fails. -/
theorem tryFrom_error_iff (a : AnimationDto) :
    tryFrom a = Except.error InvalidAnimation.ZeroDuration ↔
      collectFrames a.frame_duration a.frames =
        Except.error InvalidAnimation.ZeroDuration := by
  unfold tryFrom
  cases h : collectFrames a.frame_duration a.frames with
  | error e =>
    cases e
    exact ⟨fun _ => rfl, fun _ => rfl⟩
  | ok frames =>
    constructor
    · intro hh
      cases hh
    · intro hh
      cases hh

/-- When every entry of the list resolves a positive effective duration,
`collectFrames` succeeds. -/
theorem collectFrames_ok_of_resolves (fd : Option Nat) (l : List FrameDto)
    (h : ∀ f ∈ l, ∃ d, f.duration.or fd = some d ∧ 0 < d) :
    ∃ frames, collectFrames fd l = Except.ok frames := by
  cases hcf : collectFrames fd l with
  | ok frames => exact ⟨frames, rfl⟩
  | error e =>
    cases e
    exfalso
    obtain ⟨f, hf, hfe⟩ := (collectFrames_error_iff fd l).mp hcf
    obtain ⟨d, hd, hpos⟩ := h f hf
    rcases (canonicalizeFrame_error_iff fd f).mp hfe with h0 | h0
    · rw [h0] at hd
      cases hd
    · rw [h0] at hd
      injection hd with hd
      omega

/-! ## Claims -/

/-- C1: each frame's effective duration is the entry's own duration when
present, otherwise the shared `frame_duration`; when every entry resolves
to a positive duration, conversion succeeds and each output `Frame`
carries exactly the resolved duration. -/
theorem durations_resolve_override_then_shared (a : AnimationDto)
    (h : ∀ f ∈ a.frames, ∃ d, f.duration.or a.frame_duration = some d ∧ 0 < d) :
    ∃ r, tryFrom a = Except.ok r ∧
      List.Forall₂
        (fun f fr => ∃ d, f.duration.or a.frame_duration = some d ∧ 0 < d ∧
          fr = Frame.new f.index (Duration.from_millis d))
        a.frames r.frames := by
  obtain ⟨frames, hcf⟩ := collectFrames_ok_of_resolves a.frame_duration a.frames h
  refine ⟨⟨frames, normalizeMode a.mode⟩, ?_, ?_⟩
  · unfold tryFrom
    rw [hcf]
  · have h2 := (collectFrames_ok_iff a.frame_duration a.frames frames).mp hcf
    exact h2.imp (fun f fr hok => (canonicalizeFrame_ok_iff _ _ _).mp hok)

/-- C1 witness: `{frame_duration: 100, frames: [{index:0}, {index:1},
{index:2, duration:200}]}` converts successfully and yields durations
`[100, 100, 200]`. -/
theorem durations_resolve_override_then_shared_witness :
    (tryFrom ⟨ModeDto.Repeat, some 100, [⟨0, none⟩, ⟨1, none⟩, ⟨2, some 200⟩]⟩ =
      Except.ok ⟨[Frame.new 0 (Duration.from_millis 100),
                  Frame.new 1 (Duration.from_millis 100),
                  Frame.new 2 (Duration.from_millis 200)], Mode.RepeatFrom 0⟩) ∧
    ∃ r, tryFrom ⟨ModeDto.Repeat, some 100, [⟨0, none⟩, ⟨1, none⟩, ⟨2, some 200⟩]⟩ =
        Except.ok r ∧
      List.Forall₂
        (fun (f : FrameDto) (fr : Frame) => ∃ d,
          f.duration.or (AnimationDto.frame_duration
            ⟨ModeDto.Repeat, some 100, [⟨0, none⟩, ⟨1, none⟩, ⟨2, some 200⟩]⟩) = some d ∧
          0 < d ∧ fr = Frame.new f.index (Duration.from_millis d))
        [⟨0, none⟩, ⟨1, none⟩, ⟨2, some 200⟩] r.frames :=
  ⟨rfl,
   durations_resolve_override_then_shared
     ⟨ModeDto.Repeat, some 100, [⟨0, none⟩, ⟨1, none⟩, ⟨2, some 200⟩]⟩
     (by
       intro f hf
       fin_cases hf
       · exact ⟨100, rfl, by omega⟩
       · exact ⟨100, rfl, by omega⟩
       · exact ⟨200, rfl, by omega⟩)⟩

/-- C2: canonicalization fails, and fails with `ZeroDuration`, iff some
frame's effective duration is absent or zero; the failure is all-or-nothing
(an error excludes any `ok` result). -/
theorem zero_duration_error_characterization (a : AnimationDto) :
    (∀ e, tryFrom a = Except.error e →
      e = InvalidAnimation.ZeroDuration ∧ ∀ r, tryFrom a ≠ Except.ok r) ∧
    (tryFrom a = Except.error InvalidAnimation.ZeroDuration ↔
      ∃ f ∈ a.frames, f.duration.or a.frame_duration = none ∨
        f.duration.or a.frame_duration = some 0) := by
  constructor
  · intro e he
    cases e
    refine ⟨rfl, ?_⟩
    intro r hr
    rw [he] at hr
    cases hr
  · rw [tryFrom_error_iff, collectFrames_error_iff]
    constructor
    · rintro ⟨f, hf, hfe⟩
      exact ⟨f, hf, (canonicalizeFrame_error_iff _ _).mp hfe⟩
    · rintro ⟨f, hf, hfe⟩
      exact ⟨f, hf, (canonicalizeFrame_error_iff _ _).mpr hfe⟩

/-- C2 witness: `{frames: [{index:0, duration:0}]}` fails, so some entry
of it has an absent-or-zero effective duration. -/
theorem zero_duration_error_characterization_witness :
    ∃ f ∈ ([⟨0, some 0⟩] : List FrameDto),
      f.duration.or (AnimationDto.frame_duration ⟨ModeDto.Repeat, none, [⟨0, some 0⟩]⟩) =
          none ∨
        f.duration.or (AnimationDto.frame_duration ⟨ModeDto.Repeat, none, [⟨0, some 0⟩]⟩) =
          some 0 :=
  (zero_duration_error_characterization ⟨ModeDto.Repeat, none, [⟨0, some 0⟩]⟩).2.mp rfl

/-- C3: mode normalization maps raw `Repeat` to `RepeatFrom 0`,
`RepeatFrom n` to `RepeatFrom n`, `Once` to `Once`, `PingPong` to
`PingPong`; an absent mode field defaults to raw `Repeat`, gives the same
conversion result as an explicit `Repeat`, and yields canonical
`RepeatFrom 0` on success. -/
theorem mode_normalization_exact :
    normalizeMode ModeDto.Repeat = Mode.RepeatFrom 0 ∧
    (∀ n, normalizeMode (ModeDto.RepeatFrom n) = Mode.RepeatFrom n) ∧
    normalizeMode ModeDto.Once = Mode.Once ∧
    normalizeMode ModeDto.PingPong = Mode.PingPong ∧
    ModeDto.default = ModeDto.Repeat ∧
    (∀ fd frames, tryFrom ⟨ModeDto.default, fd, frames⟩ =
      tryFrom ⟨ModeDto.Repeat, fd, frames⟩) ∧
    (∀ a r, a.mode = ModeDto.default → tryFrom a = Except.ok r →
      r.mode = Mode.RepeatFrom 0) := by
  refine ⟨rfl, fun n => rfl, rfl, rfl, rfl, fun fd frames => rfl, ?_⟩
  intro a r hm hok
  obtain ⟨_, hmode⟩ := (tryFrom_ok_iff a r).mp hok
  rw [hmode, hm]
  rfl

/-- C3 witness: a document with the defaulted mode and one valid frame
converts to mode `RepeatFrom 0`. -/
theorem mode_normalization_exact_witness :
    SpriteSheetAnimation.mode
        ⟨[Frame.new 0 (Duration.from_millis 100)], Mode.RepeatFrom 0⟩ =
      Mode.RepeatFrom 0 :=
  mode_normalization_exact.2.2.2.2.2.2 ⟨ModeDto.default, some 100, [⟨0, none⟩]⟩
    ⟨[Frame.new 0 (Duration.from_millis 100)], Mode.RepeatFrom 0⟩ rfl rfl

/-- C4: for every `k`, a document with mode `RepeatFrom k` whose frames
all resolve positive durations converts successfully to mode
`RepeatFrom k` with the literal `k` preserved; no bound of `k` against the
frame count is required. -/
theorem repeat_from_literal_preserved (k : Nat) (a : AnimationDto)
    (hm : a.mode = ModeDto.RepeatFrom k)
    (h : ∀ f ∈ a.frames, ∃ d, f.duration.or a.frame_duration = some d ∧ 0 < d) :
    ∃ r, tryFrom a = Except.ok r ∧ r.mode = Mode.RepeatFrom k := by
  obtain ⟨frames, hcf⟩ := collectFrames_ok_of_resolves a.frame_duration a.frames h
  refine ⟨⟨frames, normalizeMode a.mode⟩, ?_, ?_⟩
  · unfold tryFrom
    rw [hcf]
  · rw [hm]
    rfl

/-- C4 witness: `RepeatFrom 5` with a single frame (so `k = 5` is beyond
the frame count) still parses to `RepeatFrom 5`. -/
theorem repeat_from_literal_preserved_witness :
    (AnimationDto.frames ⟨ModeDto.RepeatFrom 5, some 100, [⟨0, none⟩]⟩).length < 5 ∧
    ∃ r, tryFrom ⟨ModeDto.RepeatFrom 5, some 100, [⟨0, none⟩]⟩ = Except.ok r ∧
      r.mode = Mode.RepeatFrom 5 :=
  ⟨by decide,
   repeat_from_literal_preserved 5 ⟨ModeDto.RepeatFrom 5, some 100, [⟨0, none⟩]⟩ rfl
     (by
       intro f hf
       fin_cases hf
       exact ⟨100, rfl, by omega⟩)⟩

/-- C5: structured frame-entry decoding accepts exactly the keys `index`
and `duration`: any entry list containing another key fails with a
decoding error (whatever slot state the loop is in), while
`{index:0, duration:100}` decodes and `{index:0, duration:100, weight:5}`
is rejected. -/
theorem frame_entry_strict_schema (usizeBits : Nat) :
    (∀ es k v, (k, v) ∈ es → k ≠ "index" → k ≠ "duration" →
      ∀ idx? dur?, ∃ e, frameDtoMapGo usizeBits es idx? dur? = Except.error e) ∧
    FrameDto.deserialize usizeBits
        (SerdeInput.map [("index", DeValue.uint 0), ("duration", DeValue.uint 100)]) =
      Except.ok ⟨0, some 100⟩ ∧
    (∃ e, FrameDto.deserialize usizeBits
        (SerdeInput.map [("index", DeValue.uint 0), ("duration", DeValue.uint 100),
          ("weight", DeValue.uint 5)]) = Except.error e) := by
  have hpow : 0 < 2 ^ usizeBits := pow_pos (by omega) usizeBits
  refine ⟨?_, ?_, ?_⟩
  · intro es
    induction es with
    | nil =>
      intro k v hmem
      cases hmem
    | cons p rest ih =>
      obtain ⟨k', v'⟩ := p
      intro k v hmem hk1 hk2 idx? dur?
      have hmem' : (k, v) = (k', v') ∨ (k, v) ∈ rest := List.mem_cons.mp hmem
      by_cases h1 : k' = "index"
      · subst h1
        rcases hmem' with heq | hrest
        · exact absurd (congrArg Prod.fst heq) hk1
        · cases idx? with
          | some i => exact ⟨DeError.duplicateField "index", by simp [frameDtoMapGo]⟩
          | none =>
            cases v' with
            | uint n =>
              by_cases hn : n < 2 ^ usizeBits
              · obtain ⟨e, he⟩ := ih k v hrest hk1 hk2 (some n) dur?
                refine ⟨e, ?_⟩
                simp only [frameDtoMapGo, if_pos rfl, hn, if_true]
                exact he
              · exact ⟨DeError.invalidType, by simp [frameDtoMapGo, hn]⟩
            | null => exact ⟨DeError.invalidType, by simp [frameDtoMapGo]⟩
            | other => exact ⟨DeError.invalidType, by simp [frameDtoMapGo]⟩
      · by_cases h2 : k' = "duration"
        · subst h2
          rcases hmem' with heq | hrest
          · exact absurd (congrArg Prod.fst heq) hk2
          · cases dur? with
            | some d =>
              exact ⟨DeError.duplicateField "duration", by simp [frameDtoMapGo]⟩
            | none =>
              cases v' with
              | uint n =>
                by_cases hn : n < 2 ^ 64
                · obtain ⟨e, he⟩ := ih k v hrest hk1 hk2 idx? (some (some n))
                  refine ⟨e, ?_⟩
                  simp only [frameDtoMapGo, if_pos rfl, hn, if_true]
                  rw [if_neg (by decide)]
                  exact he
                · refine ⟨DeError.invalidType, ?_⟩
                  show (if n < 2 ^ 64 then
                      frameDtoMapGo usizeBits rest idx? (some (some n))
                    else Except.error DeError.invalidType) =
                    Except.error DeError.invalidType
                  rw [if_neg hn]
              | null =>
                obtain ⟨e, he⟩ := ih k v hrest hk1 hk2 idx? (some none)
                refine ⟨e, ?_⟩
                simp only [frameDtoMapGo, if_pos rfl]
                rw [if_neg (by decide)]
                exact he
              | other => exact ⟨DeError.invalidType, by simp [frameDtoMapGo]⟩
        · exact ⟨DeError.unknownField k', by simp [frameDtoMapGo, h1, h2]⟩
  · simp only [FrameDto.deserialize, visit_map, frameDtoMapGo, if_pos rfl, hpow,
      if_true]
    rw [if_neg (by decide)]
    simp [frameDtoMapGo, Except.map]
  · refine ⟨DeError.unknownField "weight", ?_⟩
    simp only [FrameDto.deserialize, visit_map, frameDtoMapGo, if_pos rfl, hpow,
      if_true]
    rw [if_neg (by decide)]
    simp [frameDtoMapGo, Except.map]

/-- C5 witness: an entry list holding the unknown key `weight` is rejected
by the map deserializer. -/
theorem frame_entry_strict_schema_witness :
    ∃ e, frameDtoMapGo 64 [("weight", DeValue.uint 5)] none none = Except.error e :=
  (frame_entry_strict_schema 64).1 [("weight", DeValue.uint 5)] "weight"
    (DeValue.uint 5) (by simp) (by decide) (by decide) none none

/-- C6: the code's `expecting` string is the truncated
"either a frame index, or a frame-index with a", not the
"either a frame index, or a frame-index with a duration" stated by the
spec; a bare index that does not fit a 32-bit `usize` fails carrying the
offending literal and that truncated string. -/
theorem bare_index_overflow_message :
    FrameDto.deserialize 32 (SerdeInput.uint (2 ^ 32)) =
      Except.error (DeError.invalidValue (2 ^ 32) frameVisitorExpecting) ∧
    frameVisitorExpecting ≠
      "either a frame index, or a frame-index with a duration" := by
  constructor
  · rw [FrameDto.deserialize, visit_u64, if_neg (by omega)]
  · decide

/-- C7: a successful conversion yields exactly one `Frame` per raw entry,
in document order, each with the entry's index unchanged. -/
theorem frames_order_and_indices (a : AnimationDto) (r : SpriteSheetAnimation)
    (h : tryFrom a = Except.ok r) :
    r.frames.length = a.frames.length ∧
    List.Forall₂ (fun f fr => fr.index = f.index) a.frames r.frames := by
  obtain ⟨hcf, _⟩ := (tryFrom_ok_iff a r).mp h
  have h2 := (collectFrames_ok_iff a.frame_duration a.frames r.frames).mp hcf
  refine ⟨(List.Forall₂.length_eq h2).symm, ?_⟩
  refine h2.imp (fun f fr hok => ?_)
  obtain ⟨d, _, _, hfr⟩ := (canonicalizeFrame_ok_iff a.frame_duration f fr).mp hok
  rw [hfr]
  rfl

/-- C7 witness: a two-entry document converts to two frames in order with
indices 7 and 3 preserved. -/
theorem frames_order_and_indices_witness :
    (SpriteSheetAnimation.frames
        ⟨[Frame.new 7 (Duration.from_millis 100), Frame.new 3 (Duration.from_millis 5)],
          Mode.Once⟩).length =
      (AnimationDto.frames
        ⟨ModeDto.Once, none, [⟨7, some 100⟩, ⟨3, some 5⟩]⟩).length ∧
    List.Forall₂ (fun (f : FrameDto) (fr : Frame) => fr.index = f.index)
      [⟨7, some 100⟩, ⟨3, some 5⟩]
      (SpriteSheetAnimation.frames
        ⟨[Frame.new 7 (Duration.from_millis 100), Frame.new 3 (Duration.from_millis 5)],
          Mode.Once⟩) :=
  frames_order_and_indices ⟨ModeDto.Once, none, [⟨7, some 100⟩, ⟨3, some 5⟩]⟩
    ⟨[Frame.new 7 (Duration.from_millis 100), Frame.new 3 (Duration.from_millis 5)],
      Mode.Once⟩ rfl

/-- C8: for every string, the string entry point of each notation equals
the bytes entry point applied to the string's UTF-8 bytes, for any
behaviour of the external yaml and ron decoders. -/
theorem str_bytes_entry_points_agree
    (yamlDe : List Nat → Except String SpriteSheetAnimation)
    (ronDe : RonExtensions → List Nat → Except String SpriteSheetAnimation)
    (s : Str) :
    from_yaml_str yamlDe s = from_yaml_bytes yamlDe s.as_bytes ∧
    from_ron_str ronDe s = from_ron_bytes ronDe s.as_bytes :=
  ⟨rfl, rfl⟩

/-- C9: a DIF with zero frame entries canonicalizes successfully to an
empty frame list with the normalized mode, whatever the shared
`frame_duration`. -/
theorem empty_frames_accepted (mode : ModeDto) (fd : Option Nat) :
    tryFrom ⟨mode, fd, []⟩ = Except.ok ⟨[], normalizeMode mode⟩ :=
  rfl

/-- C10: an explicit per-frame duration of `0` makes canonicalization fail
with `ZeroDuration` even when the DIF carries a positive shared
`frame_duration`. -/
theorem zero_override_not_rescued (a : AnimationDto) (f : FrameDto)
    (hf : f ∈ a.frames) (hdur : f.duration = some 0)
    (shared : Nat) (hsh : a.frame_duration = some shared) (hpos : 0 < shared) :
    tryFrom a = Except.error InvalidAnimation.ZeroDuration := by
  rw [tryFrom_error_iff, collectFrames_error_iff]
  refine ⟨f, hf, (canonicalizeFrame_error_iff a.frame_duration f).mpr ?_⟩
  right
  rw [hdur]
  rfl

/-- C10 witness: `{frame_duration: 100, frames: [{index:0, duration:0}]}`
fails with `ZeroDuration`. -/
theorem zero_override_not_rescued_witness :
    tryFrom ⟨ModeDto.Repeat, some 100, [⟨0, some 0⟩]⟩ =
      Except.error InvalidAnimation.ZeroDuration :=
  zero_override_not_rescued ⟨ModeDto.Repeat, some 100, [⟨0, some 0⟩]⟩ ⟨0, some 0⟩
    (by simp) rfl 100 rfl (by omega)

end Benimator
